import Mathlib

/-!
# HildaM/logs: the `slog` wrapper and its `gorm` adapter

A shallow embedding of `src/slog/option.go`, `src/slog/slog_impl.go`,
`src/slog/global.go` and `src/slog/gorm/gorm.go`, followed by the properties
proved about it.

Conventions of the embedding.

* A Go `string` is the list of its bytes (`Bytes`); `len` is `List.length`.
* Go `int` is a 64-bit two's complement integer: an `Int` kept in range by
  `wrapInt` wherever the source does arithmetic on it.
* `*logger` is mutated in place by the source; here every function that
  mutates it returns the new value.
* What the source calls in other packages (the Go standard library,
  `gookit/slog`, the file system) is either modelled from its documented
  behaviour, in the section "Go standard library", or supplied by an `Env`.
-/

namespace slog

/-! ## Go standard library -/

deriving instance DecidableEq for Except

/-- A Go string, as the sequence of its bytes. -/
abbrev Bytes := List Nat

/-- UTF-8 encoding of one code point, as in a Go string literal or `string(rune)`. -/
def utf8 (n : Nat) : Bytes :=
  if n < 128 then [n]
  else if n < 2048 then [192 + n / 64, 128 + n % 64]
  else if n < 65536 then [224 + n / 4096, 128 + n / 64 % 64, 128 + n % 64]
  else [240 + n / 262144, 128 + n / 4096 % 64, 128 + n / 64 % 64, 128 + n % 64]

/-- The bytes of a string literal. -/
def str (s : String) : Bytes :=
  (s.toList.map (fun c => utf8 c.toNat)).flatten

/-- Go `int` arithmetic: reduction of a mathematical integer to 64-bit two's complement. -/
def wrapInt (x : Int) : Int :=
  (x + 2 ^ 63) % 2 ^ 64 - 2 ^ 63

/-- Whether a byte is an ASCII decimal digit. -/
def isDigit (b : Nat) : Bool :=
  decide (48 ≤ b) && decide (b ≤ 57)

/-- Value of a run of decimal digits, most significant first. -/
def digitsValue (ds : Bytes) : Nat :=
  ds.foldl (fun acc b => acc * 10 + (b - 48)) 0

/-- Errors of `strconv.Atoi`: `strconv.ErrSyntax` and `strconv.ErrRange`. -/
inductive NumError where
  | errSyntax
  | errRange
  deriving DecidableEq, Repr

/-- Go `strconv.Atoi` on a 64-bit platform: an optional sign, then one or more
decimal digits and nothing else; the value must fit `int`. -/
def Atoi (s : Bytes) : Except NumError Int :=
  match s with
  | [] => .error .errSyntax
  | c :: rest =>
    let neg := decide (c = 45)
    let ds := if c = 45 ∨ c = 43 then rest else s
    if ds = [] ∨ ds.all isDigit = false then .error .errSyntax
    else if neg then
      if digitsValue ds ≤ 2 ^ 63 then .ok (-(digitsValue ds : Int)) else .error .errRange
    else
      if digitsValue ds < 2 ^ 63 then .ok (digitsValue ds : Int) else .error .errRange

/-- Decimal digits of a natural number, most significant first, prepended to `acc`. -/
def natDigitsAux : Nat → Nat → Bytes → Bytes
  | 0, _, acc => acc
  | fuel + 1, n, acc =>
    if n < 10 then (48 + n) :: acc
    else natDigitsAux fuel (n / 10) ((48 + n % 10) :: acc)

/-- Decimal digits of a natural number. -/
def natDigits (n : Nat) : Bytes :=
  natDigitsAux (n + 1) n []

/-- Go `fmt.Sprintf("%d", x)`. -/
def itoa (x : Int) : Bytes :=
  if x < 0 then 45 :: natDigits (-x).toNat else natDigits x.toNat

/-- Lower-casing of one ASCII byte. -/
def toLowerASCII (b : Nat) : Nat :=
  if 65 ≤ b ∧ b ≤ 90 then b + 32 else b

/-- Go `strings.ToLower`. A string of ASCII bytes only is lower-cased byte by
byte; any other string goes through `strings.Map(unicode.ToLower, s)`, which
is the parameter `uni`. -/
def stringsToLower (uni : Bytes → Bytes) (s : Bytes) : Bytes :=
  if s.all (fun b => decide (b < 128)) then s.map toLowerASCII else uni s

/-- Errors of `time.ParseDuration`. -/
inductive DurationError where
  | invalidDuration
  | missingUnit
  | unknownUnit (u : Bytes)
  deriving DecidableEq, Repr

/-- Go `time.leadingInt`: the leading run of digits as a number, and the rest;
`none` when the number exceeds `1<<63`. -/
def leadingInt : Bytes → Nat → Option (Nat × Bytes)
  | [], x => some (x, [])
  | c :: rest, x =>
    if c < 48 ∨ c > 57 then some (x, c :: rest)
    else if x > 2 ^ 63 / 10 then none
    else if x * 10 + (c - 48) > 2 ^ 63 then none
    else leadingInt rest (x * 10 + (c - 48))

/-- Go `time.leadingFraction`: the leading run of digits as numerator `x` over
`scale` (a power of ten), ignoring digits past the precision of `uint64`. -/
def leadingFraction : Bytes → Nat → Nat → Bool → Nat × Nat × Bytes
  | [], x, scale, _ => (x, scale, [])
  | c :: rest, x, scale, overflow =>
    if c < 48 ∨ c > 57 then (x, scale, c :: rest)
    else if overflow then leadingFraction rest x scale true
    else if x > (2 ^ 63 - 1) / 10 then leadingFraction rest x scale true
    else if x * 10 + (c - 48) > 2 ^ 63 then leadingFraction rest x scale true
    else leadingFraction rest (x * 10 + (c - 48)) (scale * 10) false

/-- Go `time.unitMap`: nanoseconds per unit. -/
def unitMap (u : Bytes) : Option Nat :=
  if u = str "ns" then some 1
  else if u = str "us" then some 1000
  else if u = str "µs" then some 1000
  else if u = str "μs" then some 1000
  else if u = str "ms" then some 1000000
  else if u = str "s" then some 1000000000
  else if u = str "m" then some 60000000000
  else if u = str "h" then some 3600000000000
  else none

/-- Whether a byte can start or continue the number of a duration segment. -/
def isNumberByte (c : Nat) : Bool :=
  decide (c = 46) || isDigit c

/-- The loop of Go `time.ParseDuration` over the segments `[0-9]*(\.[0-9]*)?[a-z]+`,
accumulating nanoseconds in `d`. The floating point expression
`uint64(float64(f) * (float64(unit) / scale))` is the parameter `frac`. Every
iteration consumes at least one byte, so `fuel` equal to the length suffices. -/
def parseDurationLoop (frac : Nat → Nat → Nat → Nat) :
    Nat → Bytes → Nat → Except DurationError Nat
  | _, [], d => .ok d
  | 0, _ :: _, _ => .error .invalidDuration
  | fuel + 1, c :: rest, d =>
    if isNumberByte c = false then .error .invalidDuration
    else
      match leadingInt (c :: rest) 0 with
      | none => .error .invalidDuration
      | some (v, s1) =>
        let pre := decide ((c :: rest).length ≠ s1.length)
        let fr : Nat × Nat × Bytes × Bool :=
          match s1 with
          | 46 :: t =>
            let r := leadingFraction t 0 1 false
            (r.1, r.2.1, r.2.2, decide (t.length ≠ r.2.2.length))
          | _ => (0, 1, s1, false)
        let f := fr.1
        let scale := fr.2.1
        let s2 := fr.2.2.1
        let post := fr.2.2.2
        if pre = false ∧ post = false then .error .invalidDuration
        else
          let u := s2.takeWhile (fun b => !isNumberByte b)
          let s3 := s2.dropWhile (fun b => !isNumberByte b)
          if u = [] then .error .missingUnit
          else
            match unitMap u with
            | none => .error (.unknownUnit u)
            | some unit =>
              if v > 2 ^ 63 / unit then .error .invalidDuration
              else
                let v1 := if f > 0 then (v * unit + frac f unit scale) % 2 ^ 64 else v * unit
                if f > 0 ∧ v1 > 2 ^ 63 then .error .invalidDuration
                else if (d + v1) % 2 ^ 64 > 2 ^ 63 then .error .invalidDuration
                else parseDurationLoop frac fuel s3 ((d + v1) % 2 ^ 64)

/-- Go `time.ParseDuration`: the duration in nanoseconds. -/
def goParseDuration (frac : Nat → Nat → Nat → Nat) (orig : Bytes) :
    Except DurationError Int :=
  let neg := decide (orig.head? = some 45)
  let s := if orig.head? = some 45 ∨ orig.head? = some 43 then orig.tail else orig
  if s = str "0" then .ok 0
  else if s = [] then .error .invalidDuration
  else
    match parseDurationLoop frac s.length s 0 with
    | .error e => .error e
    | .ok d =>
      if neg then .ok (wrapInt (-(d : Int)))
      else if d > 2 ^ 63 - 1 then .error .invalidDuration
      else .ok (d : Int)

/-! ## Data model (`gookit/slog` values the wrapper builds, and `logger`) -/

/-- The levels of `gookit/slog`. -/
inductive Level where
  | PanicLevel
  | FatalLevel
  | ErrorLevel
  | WarnLevel
  | NoticeLevel
  | InfoLevel
  | DebugLevel
  | TraceLevel
  deriving DecidableEq, Repr

/-- The fields of `slog.TextFormatter` that the wrapper sets. -/
structure TextFormatter where
  template : Bytes
  EnableColor : Bool
  FullDisplay : Bool
  TimeFormat : Bytes
  deriving DecidableEq, Repr

/-- The `handler.With...` settings passed to the rotating file handlers. -/
structure HandlerConfig where
  logLevels : List Level
  buffSize : Int
  backupNum : Nat
  compress : Bool
  filePerm : Nat
  deriving DecidableEq, Repr

/-- What a handler was constructed from: `handler.NewConsoleHandler(levels)`,
`handler.NewSizeRotateFileHandler(logFile, maxSize, ...)` or
`handler.NewTimeRotateFileHandler(logFile, rotateTime, ...)`; the last one
also records `rotatefile.DefaultFilePerm` as assigned just before the call. -/
inductive HandlerKind where
  | console (levels : List Level)
  | sizeRotate (logFile : Bytes) (maxSize : Int) (cfg : HandlerConfig)
  | timeRotate (logFile : Bytes) (rotateTime : Int) (cfg : HandlerConfig) (defaultFilePerm : Nat)
  deriving DecidableEq, Repr

/-- A handler and the formatter given to it by `SetFormatter`. -/
structure Handler where
  kind : HandlerKind
  formatter : Option TextFormatter
  deriving DecidableEq, Repr

/-- An `io.Writer` obtained from a handler: `h.Output` of a console handler,
`h.Writer()` of a rotating file handler. -/
inductive Writer where
  | ofHandler (kind : HandlerKind)
  deriving DecidableEq, Repr

/-- A printf argument of the lines printed after initialisation. -/
inductive Arg where
  | s (v : Bytes)
  | d (v : Int)
  | t (v : Bool)
  | o (v : Nat)
  deriving DecidableEq, Repr

/-- One call of a logging method: level, message template, arguments. -/
structure Record where
  level : Level
  msg : Bytes
  args : List Arg
  deriving DecidableEq, Repr

/-- The `*slog.Logger` of `gookit/slog` as the wrapper uses it: the handlers
added, whether `DoNothingOnPanicFatal` was called, and the records logged. -/
structure SlogLogger where
  handlers : List Handler
  doNothingOnPanicFatal : Bool
  records : List Record
  deriving DecidableEq, Repr

/-- `slog.New()`. -/
def SlogLogger.new : SlogLogger :=
  { handlers := [], doNothingOnPanicFatal := false, records := [] }

/-- The struct `logger`. The fields `enableColor` and `callerSkip` are not in the
declaration in `slog_impl.go`; they are the fields `option.go` assigns in
`WithColor` and `WithCallerSkip`, and no function of `slog_impl.go` reads them. -/
structure logger where
  sl : SlogLogger
  level : Bytes
  maxSize : Int
  maxBackups : Nat
  timeFormat : Bytes
  compress : Bool
  filePerm : Nat
  printAfterInitialized : Bool
  bufferSize : Int
  rotateInterval : Bytes
  rotateWriter : Option Writer
  enableColor : Bool
  callerSkip : Int
  deriving DecidableEq, Repr

/-- The errors the constructors return. -/
inductive Error where
  | invalidRotateInterval (interval : Bytes)
  | unsupportedRotateIntervalType (lowerLastChar : Bytes)
  | atoi (e : NumError)
  | parseDuration (e : DurationError)
  | handler (msg : Bytes)
  deriving DecidableEq, Repr

/-- What the wrapper takes from outside its own code.

* `unicodeToLower`: `strings.Map(unicode.ToLower, s)`, reached by
  `strings.ToLower` only for a string with a non-ASCII byte.
* `parseDuration`: `time.ParseDuration`, in nanoseconds.
* `rotateTime`: `rotatefile.RotateTime(d.Seconds())` for a duration of `d`
  nanoseconds (a conversion through `float64`).
* `handlerError`: the error with which the `gookit/slog` constructor of a
  rotating file handler fails, `none` when it succeeds.
* `write`: the result `(n, err)` of `Write` on a handler's writer. -/
structure Env where
  unicodeToLower : Bytes → Bytes
  parseDuration : Bytes → Except DurationError Int
  rotateTime : Int → Int
  handlerError : HandlerKind → Option Bytes
  write : Writer → Bytes → Int × Option Bytes

/-! ## `option.go` -/

/-- The type `Option` of the source, `func(*logger)`. -/
abbrev OptionFunc := logger → logger

/-- `WithLevel`. -/
def WithLevel (level : Bytes) : OptionFunc :=
  let level :=
    if level = str "info" ∨ level = str "warn" ∨ level = str "error" ∨ level = str "debug"
    then level else str "info"
  fun l => { l with level := level }

/-- `WithMaxSize`. -/
def WithMaxSize (maxSize : Int) : OptionFunc :=
  let maxSize := if maxSize = 0 then 100 * 1024 * 1024 else maxSize
  fun l => { l with maxSize := maxSize }

/-- `WithRotateInterval`. -/
def WithRotateInterval (interval : Bytes) : OptionFunc :=
  fun l => { l with rotateInterval := interval }

/-- `WithBufferSize`. -/
def WithBufferSize (bufferSize : Int) : OptionFunc :=
  fun l => { l with bufferSize := bufferSize }

/-- `WithMaxBackups`. -/
def WithMaxBackups (maxBackups : Nat) : OptionFunc :=
  fun l => { l with maxBackups := maxBackups }

/-- `WithCompress`. -/
def WithCompress : OptionFunc :=
  fun l => { l with compress := true }

/-- `WithTimeFormat`. -/
def WithTimeFormat (timeFormat : Bytes) : OptionFunc :=
  fun l => { l with timeFormat := timeFormat }

/-- `WithFilePerm`. -/
def WithFilePerm (perm : Nat) : OptionFunc :=
  fun l => { l with filePerm := perm }

/-- `WithPrintAfterInitialized`. -/
def WithPrintAfterInitialized : OptionFunc :=
  fun l => { l with printAfterInitialized := true }

/-- `WithColor`. -/
def WithColor (enable : Bool) : OptionFunc :=
  fun l => { l with enableColor := enable }

/-- `WithCallerSkip`. -/
def WithCallerSkip (skip : Int) : OptionFunc :=
  fun l => { l with callerSkip := if skip < 0 then 0 else skip }

/-- An option that leaves the library logger `sl` and the rotate-writer as they
are; every option this package exports is one (`exported_options_keepOutput`). -/
def OptionFunc.keepsOutput (o : OptionFunc) : Prop :=
  ∀ l : logger, (o l).sl = l.sl ∧ (o l).rotateWriter = l.rotateWriter

/-! ## `slog_impl.go` -/

/-- `newLogger`: the defaults, then the options in order. -/
def newLogger (opts : List OptionFunc) : logger :=
  opts.foldl (fun l opt => opt l)
    { sl := SlogLogger.new
      level := str "info"
      maxSize := 0
      maxBackups := 0
      timeFormat := str "2006-01-02 15:04:05"
      compress := true
      filePerm := 0o700
      printAfterInitialized := false
      bufferSize := 0
      rotateInterval := str "1w"
      rotateWriter := none
      enableColor := false
      callerSkip := 0 }

/-- `genLogFormatter`. -/
def genLogFormatter (timeFormat : Bytes) : TextFormatter :=
  { template := str "[\x7b\x7bdatetime\x7d\x7d] [\x7b\x7blevel\x7d\x7d] [\x7b\x7bcaller\x7d\x7d] \x7b\x7bmessage\x7d\x7d\n"
    EnableColor := true
    FullDisplay := true
    TimeFormat := timeFormat }

/-- `parseLevels`. -/
def parseLevels (env : Env) (level : Bytes) : List Level :=
  if stringsToLower env.unicodeToLower level = str "debug" then
    [.InfoLevel, .WarnLevel, .ErrorLevel, .DebugLevel]
  else
    [.InfoLevel, .WarnLevel, .ErrorLevel]

/-- The settings both rotating handlers receive: `WithLogLevels`, `WithBuffSize`,
`WithBackupNum`, `WithCompress`, `WithFilePerm`. -/
def handlerConfig (env : Env) (log : logger) : HandlerConfig :=
  { logLevels := parseLevels env log.level
    buffSize := log.bufferSize
    backupNum := log.maxBackups
    compress := log.compress
    filePerm := log.filePerm }

/-- `handlerRotateFile`. -/
def handlerRotateFile (env : Env) (log : logger) (logFile : Bytes) : Except Error Handler :=
  match env.handlerError (.sizeRotate logFile log.maxSize (handlerConfig env log)) with
  | some msg => .error (.handler msg)
  | none => .ok { kind := .sizeRotate logFile log.maxSize (handlerConfig env log), formatter := none }

/-- `strings.ToLower(string(lastChar))` in `handlerRotateTime`, for the last byte
of the interval. -/
def lowerLastChar (env : Env) (interval : Bytes) : Bytes :=
  stringsToLower env.unicodeToLower (utf8 (interval.getLastD 0))

/-- First part of `handlerRotateTime` (the length check and the `switch`): the
value of `log.rotateInterval` as it is handed to `time.ParseDuration`, or the
error returned before that. -/
def convertRotateInterval (env : Env) (rotateInterval : Bytes) : Except Error Bytes :=
  if rotateInterval.length < 2 then .error (.invalidRotateInterval rotateInterval)
  else if lowerLastChar env rotateInterval = str "w"
      ∨ lowerLastChar env rotateInterval = str "d" then
    match Atoi rotateInterval.dropLast with
    | .error e => .error (.atoi e)
    | .ok num =>
      if lowerLastChar env rotateInterval = str "w" then
        .ok (itoa (wrapInt (wrapInt (num * 7) * 24)) ++ str "h")
      else
        .ok (itoa (wrapInt (num * 24)) ++ str "h")
  else if lowerLastChar env rotateInterval = str "h"
      ∨ lowerLastChar env rotateInterval = str "m"
      ∨ lowerLastChar env rotateInterval = str "s" then
    .ok rotateInterval
  else .error (.unsupportedRotateIntervalType (lowerLastChar env rotateInterval))

/-- Second part of `handlerRotateTime`: `time.ParseDuration` on the interval, then
`handler.NewTimeRotateFileHandler`. -/
def buildTimeRotateHandler (env : Env) (log : logger) (logFile : Bytes) : Except Error Handler :=
  match env.parseDuration log.rotateInterval with
  | .error e => .error (.parseDuration e)
  | .ok rotateIntervalDuration =>
    match env.handlerError
        (.timeRotate logFile (env.rotateTime rotateIntervalDuration) (handlerConfig env log) 0o700) with
    | some msg => .error (.handler msg)
    | none =>
      .ok { kind := .timeRotate logFile (env.rotateTime rotateIntervalDuration)
                      (handlerConfig env log) 0o700
            formatter := none }

/-- `handlerRotateTime`: the logger as the call leaves it (its `rotateInterval`
is assigned in the `w` and `d` cases) and the result. -/
def handlerRotateTime (env : Env) (log : logger) (logFile : Bytes) :
    logger × Except Error Handler :=
  match convertRotateInterval env log.rotateInterval with
  | .error e => (log, .error e)
  | .ok interval =>
    ({ log with rotateInterval := interval },
      buildTimeRotateHandler env { log with rotateInterval := interval } logFile)

/-- The methods `Info`, `Error`, `Warn`, `Debug` of `logger`: one record each. -/
def logger.log (l : logger) (level : Level) (msg : Bytes) (args : List Arg) : logger :=
  { l with sl := { l.sl with records := l.sl.records ++ [{ level := level, msg := msg, args := args }] } }

/-- `Info`. -/
def logger.Info (l : logger) (msg : Bytes) (args : List Arg) : logger :=
  l.log .InfoLevel msg args

/-- `Error`. -/
def logger.Error (l : logger) (msg : Bytes) (args : List Arg) : logger :=
  l.log .ErrorLevel msg args

/-- `Warn`. -/
def logger.Warn (l : logger) (msg : Bytes) (args : List Arg) : logger :=
  l.log .WarnLevel msg args

/-- `Debug`. -/
def logger.Debug (l : logger) (msg : Bytes) (args : List Arg) : logger :=
  l.log .DebugLevel msg args

/-- `h.SetFormatter(logFormatter); l.sl.AddHandler(h); l.rotateWriter = ...` -/
def logger.attach (l : logger) (h : Handler) (logFormatter : TextFormatter) : logger :=
  { l with
    sl := { l.sl with handlers := l.sl.handlers ++ [{ h with formatter := some logFormatter }] }
    rotateWriter := some (.ofHandler h.kind) }

/-- `l.sl.DoNothingOnPanicFatal()`. -/
def logger.doNothingOnPanicFatal (l : logger) : logger :=
  { l with sl := { l.sl with doNothingOnPanicFatal := true } }

/-- `NewStdoutLogger`. -/
def NewStdoutLogger (env : Env) (opts : List OptionFunc) : Except Error logger :=
  let l := newLogger opts
  let logFormatter := genLogFormatter l.timeFormat
  let h : Handler := { kind := .console (parseLevels env l.level), formatter := none }
  .ok (l.attach h logFormatter).doNothingOnPanicFatal

/-- The lines `NewFileLogger` prints when `printAfterInitialized` is set. -/
def logger.printSettings (l : logger) : logger :=
  (((((((l.Info (str "[logger] Level: %s") [.s l.level]).Info
    (str "[logger] Max Backups: %d") [.d l.maxBackups]).Info
    (str "[logger] Max Size: %d") [.d l.maxSize]).Info
    (str "[logger] Rotate Interval: %s") [.s l.rotateInterval]).Info
    (str "[logger] Compress: %t") [.t l.compress]).Info
    (str "[logger] Buffer Size: %d") [.d l.bufferSize]).Info
    (str "[logger] File Perm: %o") [.o l.filePerm]).Info
    (str "[logger] Time Format: %s") [.s l.timeFormat]

/-- The end of `NewFileLogger`, after the handler selection. -/
def logger.finish (l : logger) : logger :=
  let l1 := l.doNothingOnPanicFatal
  if l1.printAfterInitialized then l1.printSettings else l1

/-- `if l.maxBackups == 0 { l.maxBackups = 12 }` at the start of `NewFileLogger`. -/
def logger.defaultBackups (l : logger) : logger :=
  if l.maxBackups = 0 then { l with maxBackups := 12 } else l

/-- `NewFileLogger`. -/
def NewFileLogger (env : Env) (path : Bytes) (opts : List OptionFunc) : Except Error logger :=
  let l := (newLogger opts).defaultBackups
  let logFormatter := genLogFormatter l.timeFormat
  if l.maxSize > 0 then
    match handlerRotateFile env l path with
    | .error e => .error e
    | .ok h => .ok (l.attach h logFormatter).finish
  else if l.rotateInterval ≠ [] then
    match handlerRotateTime env l path with
    | (_, .error e) => .error e
    | (l1, .ok h) => .ok (l1.attach h logFormatter).finish
  else .ok l.finish

/-- The result of `Write`: the values returned and the calls forwarded to a writer. -/
structure WriteResult where
  n : Int
  err : Option Bytes
  forwarded : List (Writer × Bytes)
  deriving DecidableEq, Repr

/-- `Write` of `logger`. -/
def logger.Write (env : Env) (l : logger) (p : Bytes) : WriteResult :=
  match l.rotateWriter with
  | none => { n := 0, err := none, forwarded := [] }
  | some w => { n := (env.write w p).1, err := (env.write w p).2, forwarded := [(w, p)] }

/-! ## `global.go` -/

/-- A value of the interface `LoggerWithWriter`: a `*logger` built by this
package, or some other implementation, identified by a number. -/
inductive LoggerWithWriter where
  | own (l : logger)
  | custom (id : Nat)
  deriving DecidableEq, Repr

/-- The package variables `defaultLogger` (nil is `none`) and `once` (whether
`once.Do` has already run a function). The lock `mu` has no sequential effect. -/
structure Global where
  defaultLogger : Option LoggerWithWriter
  onceDone : Bool
  deriving DecidableEq, Repr

/-- The state of the package variables when the program starts. -/
def Global.initial : Global :=
  { defaultLogger := none, onceDone := false }

/-- What a call on the global state did: the new state, the error returned,
and whether the call ran a logger constructor. -/
structure InitResult where
  state : Global
  err : Option Error
  constructed : Bool
  deriving DecidableEq, Repr

/-- The assignment `defaultLogger, err = ...` inside `once.Do`. -/
def installResult (r : Except Error logger) : InitResult :=
  match r with
  | .ok l => { state := { defaultLogger := some (.own l), onceDone := true }, err := none, constructed := true }
  | .error e => { state := { defaultLogger := none, onceDone := true }, err := some e, constructed := true }

/-- `Init`. -/
def Init (env : Env) (opts : List OptionFunc) (g : Global) : InitResult :=
  if g.onceDone then { state := g, err := none, constructed := false }
  else installResult (NewStdoutLogger env opts)

/-- `InitFile`. -/
def InitFile (env : Env) (path : Bytes) (opts : List OptionFunc) (g : Global) : InitResult :=
  if g.onceDone then { state := g, err := none, constructed := false }
  else installResult (NewFileLogger env path opts)

/-- The values the package panics with: `"logger cannot be nil"` in `SetLogger`,
and `"failed to create default logger: %v"` with the error in `GetLogger`. -/
inductive Panic where
  | loggerNil
  | defaultLoggerFailed (e : Error)
  deriving DecidableEq, Repr

/-- The outcome of a call that may panic: the global state after it, and the
value returned or the panic. -/
structure Outcome (α : Type) where
  state : Global
  result : Except Panic α

/-- `SetLogger`; the argument `none` is the nil interface value. -/
def SetLogger (logger : Option LoggerWithWriter) (g : Global) : Outcome Unit :=
  match logger with
  | none => { state := g, result := .error .loggerNil }
  | some h => { state := { g with defaultLogger := some h }, result := .ok () }

/-- `GetLogger`; `constructed` tells whether a default logger was built. -/
def GetLogger (env : Env) (g : Global) : Outcome LoggerWithWriter × Bool :=
  match g.defaultLogger with
  | some h => ({ state := g, result := .ok h }, false)
  | none =>
    match NewStdoutLogger env [] with
    | .error e => ({ state := g, result := .error (.defaultLoggerFailed e) }, true)
    | .ok l =>
      ({ state := { g with defaultLogger := some (.own l) }, result := .ok (.own l) }, true)

/-- A call of one of the two initialisation functions. -/
inductive InitCall where
  | init (opts : List OptionFunc)
  | initFile (path : Bytes) (opts : List OptionFunc)

/-- Runs one initialisation call. -/
def InitCall.run (env : Env) (c : InitCall) (g : Global) : InitResult :=
  match c with
  | .init opts => Init env opts g
  | .initFile path opts => InitFile env path opts g

/-- Runs a sequence of initialisation calls in order: the results of the calls
and the final state. -/
def runInitCalls (env : Env) : List InitCall → Global → List InitResult × Global
  | [], g => ([], g)
  | c :: cs, g =>
    let r := c.run env g
    let rest := runInitCalls env cs r.state
    (r :: rest.1, rest.2)

end slog

/-! ## `gorm/gorm.go` -/

namespace gorm

open slog (Bytes Level str)

/-- `logger.Silent`; the type `logger.LogLevel` of gorm is `int`, and its
constants are declared as `iota + 1`. -/
def Silent : Int := 1

/-- `logger.Error`. -/
def Error : Int := 2

/-- `logger.Warn`. -/
def Warn : Int := 3

/-- `logger.Info`. -/
def Info : Int := 4

/-- A Go `error` value as `errors.Is` sees it: the sentinel
`logger.ErrRecordNotFound`, another error, or an error wrapping one. -/
inductive GoError where
  | ErrRecordNotFound
  | other (msg : Bytes)
  | wrap (msg : Bytes) (inner : GoError)
  deriving DecidableEq, Repr

/-- `errors.Is(err, logger.ErrRecordNotFound)`. -/
def isRecordNotFound : GoError → Bool
  | .ErrRecordNotFound => true
  | .other _ => false
  | .wrap _ inner => isRecordNotFound inner

/-- `logger.Config` of gorm, embedded in `GormLogger`; `SlowThreshold` in nanoseconds. -/
structure GormLogger where
  SlowThreshold : Int
  Colorful : Bool
  IgnoreRecordNotFoundError : Bool
  ParameterizedQueries : Bool
  LogLevel : Int
  deriving DecidableEq, Repr

/-- One line written by `Trace`: the `gookit/slog` level it is logged at, the
error (error branch), the slow threshold (slow branch), the elapsed time in
nanoseconds, the row count shown and the SQL text. -/
structure TraceLine where
  level : Level
  err : Option GoError
  slow : Option Int
  elapsed : Int
  rows : Int
  sql : Bytes
  deriving DecidableEq, Repr

/-- `LogMode`. -/
def GormLogger.LogMode (l : GormLogger) (level : Int) : GormLogger :=
  { l with LogLevel := level }

/-- The row count as shown: `-1` becomes `0`. -/
def normRows (rows : Int) : Int :=
  if rows = -1 then 0 else rows

/-- `Trace`, with `elapsed = time.Since(begin)` in nanoseconds and `fc` the
callback returning the SQL text and the row count; `err = none` is nil. -/
def GormLogger.Trace (l : GormLogger) (elapsed : Int) (fc : Unit → Bytes × Int)
    (err : Option GoError) : Option TraceLine :=
  if l.LogLevel ≤ Silent then none
  else if err ≠ none ∧ l.LogLevel ≥ Error
      ∧ (¬ (err.any isRecordNotFound = true) ∨ ¬ (l.IgnoreRecordNotFoundError = true)) then
    some { level := .ErrorLevel, err := err, slow := none, elapsed := elapsed,
           rows := normRows (fc ()).2, sql := (fc ()).1 }
  else if elapsed > l.SlowThreshold ∧ l.SlowThreshold ≠ 0 ∧ l.LogLevel ≥ Warn then
    some { level := .WarnLevel, err := none, slow := some l.SlowThreshold, elapsed := elapsed,
           rows := normRows (fc ()).2, sql := (fc ()).1 }
  else if l.LogLevel = Info then
    some { level := .TraceLevel, err := none, slow := none, elapsed := elapsed,
           rows := normRows (fc ()).2, sql := (fc ()).1 }
  else none

end gorm

namespace slog

/-! ## A concrete environment -/

/-- An environment for evaluating the functions on concrete inputs: the Go
duration parser, the whole seconds of a duration (what `rotateTime` is on a
duration of whole seconds), every handler created without error, every write
accepted in full. `unicodeToLower` and the fraction of `goParseDuration` are not
reached on ASCII strings without a decimal point, the only ones used below. -/
def sampleEnv : Env :=
  { unicodeToLower := fun s => s
    parseDuration := goParseDuration (fun f unit scale => f * unit / scale)
    rotateTime := fun d => Int.tdiv d 1000000000
    handlerError := fun _ => none
    write := fun _ p => (p.length, none) }

/-! ## Lemmas on the decimal conversions -/

theorem natDigitsAux_all (fuel n : Nat) (acc : Bytes) (h : acc.all isDigit = true) :
    (natDigitsAux fuel n acc).all isDigit = true := by
  induction fuel generalizing n acc with
  | zero => simpa [natDigitsAux] using h
  | succ k ih =>
    unfold natDigitsAux
    split
    · have hd : isDigit (48 + n) = true := by
        simp only [isDigit, Bool.and_eq_true, decide_eq_true_eq]; omega
      simp only [List.all_cons, hd, h, Bool.and_self]
    · apply ih
      have hd : isDigit (48 + n % 10) = true := by
        simp only [isDigit, Bool.and_eq_true, decide_eq_true_eq]; omega
      simp only [List.all_cons, hd, h, Bool.and_self]

theorem natDigitsAux_ne_nil_of_acc (fuel n : Nat) (acc : Bytes) (h : acc ≠ []) :
    natDigitsAux fuel n acc ≠ [] := by
  induction fuel generalizing n acc with
  | zero => simpa [natDigitsAux] using h
  | succ k ih =>
    unfold natDigitsAux
    split
    · simp
    · exact ih _ _ (by simp)

theorem natDigits_ne_nil (n : Nat) : natDigits n ≠ [] := by
  unfold natDigits natDigitsAux
  split
  · simp
  · exact natDigitsAux_ne_nil_of_acc _ _ _ (by simp)

theorem natDigits_all (n : Nat) : (natDigits n).all isDigit = true :=
  natDigitsAux_all _ _ _ (by simp)

theorem natDigitsAux_value (fuel n : Nat) (acc : Bytes) (h : n < fuel) :
    (natDigitsAux fuel n acc).foldl (fun a b => a * 10 + (b - 48)) 0
      = acc.foldl (fun a b => a * 10 + (b - 48)) n := by
  induction fuel generalizing n acc with
  | zero => omega
  | succ k ih =>
    unfold natDigitsAux
    split
    · simp
    · rw [ih _ _ (by omega)]
      simp only [List.foldl_cons]
      congr 1
      omega

theorem digitsValue_natDigits (n : Nat) : digitsValue (natDigits n) = n := by
  unfold digitsValue natDigits
  rw [natDigitsAux_value _ _ _ (by omega)]
  simp

/-- `strconv.Atoi` reads back what `%d` prints, for every value of type `int`. -/
theorem Atoi_itoa (x : Int) (h1 : -2 ^ 63 ≤ x) (h2 : x < 2 ^ 63) : Atoi (itoa x) = .ok x := by
  have hne := natDigits_ne_nil
  have hall := natDigits_all
  have hval := digitsValue_natDigits
  by_cases hx : x < 0
  · have hv : digitsValue (natDigits (-x).toNat) ≤ 9223372036854775808 := by rw [hval]; omega
    have hc : ((digitsValue (natDigits (-x).toNat) : Nat) : Int) = -x := by rw [hval]; omega
    simp [itoa, hx, Atoi, hne, hall, hv, hc]
  · obtain ⟨c, rest, hcr⟩ : ∃ c rest, natDigits x.toNat = c :: rest := by
      cases hl : natDigits x.toNat with
      | nil => exact absurd hl (hne _)
      | cons c rest => exact ⟨c, rest, rfl⟩
    have hcd : isDigit c = true := by
      have := hall x.toNat
      rw [hcr] at this
      simp only [List.all_cons, Bool.and_eq_true] at this
      exact this.1
    have hc45 : c ≠ 45 := by
      intro h; rw [h] at hcd; revert hcd; decide
    have hc43 : c ≠ 43 := by
      intro h; rw [h] at hcd; revert hcd; decide
    have hall2 : (c :: rest).all isDigit = true := by rw [← hcr]; exact hall _
    have hv : digitsValue (c :: rest) < 9223372036854775808 := by rw [← hcr, hval]; omega
    have hcv : ((digitsValue (c :: rest) : Nat) : Int) = x := by rw [← hcr, hval]; omega
    simp only [itoa, hx, if_false, hcr, Atoi, hc45, hc43, or_self, decide_False]
    simp [hall2, hv, hcv]

theorem itoa_ne_nil (x : Int) : itoa x ≠ [] := by
  unfold itoa
  split
  · simp
  · exact natDigits_ne_nil _

/-! ## Lemmas on `handlerRotateTime` -/

theorem wrapInt_of_range (x : Int) (h1 : -2 ^ 63 ≤ x) (h2 : x < 2 ^ 63) : wrapInt x = x := by
  unfold wrapInt
  norm_num at h1 h2 ⊢
  omega

theorem wrapInt_week (n : Int) : wrapInt (wrapInt (n * 7) * 24) = wrapInt (n * 168) := by
  unfold wrapInt
  norm_num
  omega

theorem lowerLastChar_concat (env : Env) (p : Bytes) (b : Nat) (hb : b < 128) :
    lowerLastChar env (p ++ [b]) = [toLowerASCII b] := by
  simp [lowerLastChar, List.getLastD_concat, utf8, hb, stringsToLower]

theorem Atoi_ok_ne_nil (p : Bytes) (n : Int) (h : Atoi p = .ok n) : p ≠ [] := by
  intro hp
  rw [hp] at h
  simp [Atoi] at h

theorem length_concat_ge_two (p : Bytes) (b : Nat) (hp : p ≠ []) : ¬ (p ++ [b]).length < 2 := by
  cases p with
  | nil => exact absurd rfl hp
  | cons c rest => simp

/-- The `w` case of the switch: any prefix `strconv.Atoi` accepts is multiplied by
`7*24` in `int` arithmetic and printed with unit `h`. The unit may be upper case. -/
theorem convertRotateInterval_week (env : Env) (p : Bytes) (n : Int) (b : Nat)
    (hb : b = 119 ∨ b = 87) (hp : Atoi p = .ok n) :
    convertRotateInterval env (p ++ [b]) = .ok (itoa (wrapInt (n * 168)) ++ str "h") := by
  have hlen := length_concat_ge_two p b (Atoi_ok_ne_nil p n hp)
  have hl : lowerLastChar env (p ++ [b]) = [119] := by
    rw [lowerLastChar_concat env p b (by omega)]
    rcases hb with h | h <;> subst h <;> decide
  have hw : str "w" = [119] := by decide
  unfold convertRotateInterval
  simp only [hlen, if_false, hl, hw, true_or, if_true, List.dropLast_concat, hp, wrapInt_week]

/-- The `d` case of the switch. -/
theorem convertRotateInterval_day (env : Env) (p : Bytes) (n : Int) (b : Nat)
    (hb : b = 100 ∨ b = 68) (hp : Atoi p = .ok n) :
    convertRotateInterval env (p ++ [b]) = .ok (itoa (wrapInt (n * 24)) ++ str "h") := by
  have hlen := length_concat_ge_two p b (Atoi_ok_ne_nil p n hp)
  have hl : lowerLastChar env (p ++ [b]) = [100] := by
    rw [lowerLastChar_concat env p b (by omega)]
    rcases hb with h | h <;> subst h <;> decide
  have hw : str "w" = [119] := by decide
  have hd : str "d" = [100] := by decide
  unfold convertRotateInterval
  simp only [hlen, if_false, hl, hw, hd, or_true, if_true, List.dropLast_concat, hp]
  simp

/-- The `h`, `m`, `s` case of the switch: the interval is left as it is. -/
theorem convertRotateInterval_hms (env : Env) (p : Bytes) (b : Nat)
    (hb : b = 104 ∨ b = 109 ∨ b = 115) (hp : p ≠ []) :
    convertRotateInterval env (p ++ [b]) = .ok (p ++ [b]) := by
  have hlen := length_concat_ge_two p b hp
  have hl : lowerLastChar env (p ++ [b]) = [b] := by
    rw [lowerLastChar_concat env p b (by omega)]
    rcases hb with h | h | h <;> subst h <;> decide
  have hw : str "w" = [119] := by decide
  have hd : str "d" = [100] := by decide
  have hh : str "h" = [104] := by decide
  have hm : str "m" = [109] := by decide
  have hs : str "s" = [115] := by decide
  unfold convertRotateInterval
  simp only [hlen, if_false, hl, hw, hd, hh, hm, hs]
  rcases hb with h | h | h <;> subst h <;> simp

theorem handlerRotateTime_of_convert (env : Env) (log : logger) (logFile s : Bytes)
    (h : convertRotateInterval env log.rotateInterval = .ok s) :
    handlerRotateTime env log logFile
      = ({ log with rotateInterval := s },
          buildTimeRotateHandler env { log with rotateInterval := s } logFile) := by
  unfold handlerRotateTime
  rw [h]

theorem handlerRotateTime_of_convert_error (env : Env) (log : logger) (logFile : Bytes) (e : Error)
    (h : convertRotateInterval env log.rotateInterval = .error e) :
    handlerRotateTime env log logFile = (log, .error e) := by
  unfold handlerRotateTime
  rw [h]

/-! ## Rotation interval: conversion (C1) -/

/-- C1 (as amended). For every integer `n` whose product `n*7*24` fits the Go type
`int`, the interval `<n>w` written in decimal is handed to the duration parser as
`<n*7*24>h`; for every integer `k` whose product `k*24` fits `int`, `<k>d` is
handed over as `<k*24>h`; every interval of at least two bytes whose last
character is `s`, `m` or `h` is handed over unchanged. In each case
`handlerRotateTime` stores that string in the logger and continues with the
duration parser on it. -/
theorem C1_rotate_interval_conversion (env : Env) (log : logger) (logFile : Bytes)
    (n : Int) (hw : -2 ^ 63 ≤ n * 7 * 24 ∧ n * 7 * 24 < 2 ^ 63)
    (k : Int) (hd : -2 ^ 63 ≤ k * 24 ∧ k * 24 < 2 ^ 63)
    (s : Bytes) (hlen : 2 ≤ s.length)
    (hlast : s.getLast? = some 115 ∨ s.getLast? = some 109 ∨ s.getLast? = some 104) :
    (convertRotateInterval env (itoa n ++ str "w") = .ok (itoa (n * 7 * 24) ++ str "h")
      ∧ handlerRotateTime env { log with rotateInterval := itoa n ++ str "w" } logFile
        = ({ log with rotateInterval := itoa (n * 7 * 24) ++ str "h" },
            buildTimeRotateHandler env
              { log with rotateInterval := itoa (n * 7 * 24) ++ str "h" } logFile))
    ∧ (convertRotateInterval env (itoa k ++ str "d") = .ok (itoa (k * 24) ++ str "h")
      ∧ handlerRotateTime env { log with rotateInterval := itoa k ++ str "d" } logFile
        = ({ log with rotateInterval := itoa (k * 24) ++ str "h" },
            buildTimeRotateHandler env
              { log with rotateInterval := itoa (k * 24) ++ str "h" } logFile))
    ∧ (convertRotateInterval env s = .ok s
      ∧ handlerRotateTime env { log with rotateInterval := s } logFile
        = ({ log with rotateInterval := s },
            buildTimeRotateHandler env { log with rotateInterval := s } logFile)) := by
  have hn : Atoi (itoa n) = .ok n := Atoi_itoa n (by norm_num at hw ⊢; omega) (by norm_num at hw ⊢; omega)
  have hk : Atoi (itoa k) = .ok k := Atoi_itoa k (by norm_num at hd ⊢; omega) (by norm_num at hd ⊢; omega)
  have e1 : convertRotateInterval env (itoa n ++ str "w") = .ok (itoa (n * 7 * 24) ++ str "h") := by
    have h := convertRotateInterval_week env (itoa n) n 119 (Or.inl rfl) hn
    rw [wrapInt_of_range (n * 168) (by omega) (by omega)] at h
    have h168 : n * 168 = n * 7 * 24 := by ring
    rw [h168] at h
    exact h
  have e2 : convertRotateInterval env (itoa k ++ str "d") = .ok (itoa (k * 24) ++ str "h") := by
    have h := convertRotateInterval_day env (itoa k) k 100 (Or.inl rfl) hk
    rw [wrapInt_of_range (k * 24) hd.1 hd.2] at h
    exact h
  have e3 : convertRotateInterval env s = .ok s := by
    obtain ⟨b, hb, hbs⟩ : ∃ b, s.getLast? = some b ∧ (b = 104 ∨ b = 109 ∨ b = 115) := by
      rcases hlast with h | h | h
      · exact ⟨115, h, by simp⟩
      · exact ⟨109, h, by simp⟩
      · exact ⟨104, h, by simp⟩
    have hs : s.dropLast ++ [b] = s := List.dropLast_append_getLast? b hb
    have hp : s.dropLast ≠ [] := by
      intro h0
      have := congrArg List.length h0
      simp at this
      omega
    have h := convertRotateInterval_hms env s.dropLast b hbs hp
    rw [hs] at h
    exact h
  exact ⟨⟨e1, handlerRotateTime_of_convert env _ logFile _ e1⟩,
    ⟨e2, handlerRotateTime_of_convert env _ logFile _ e2⟩,
    ⟨e3, handlerRotateTime_of_convert env _ logFile _ e3⟩⟩

/-- Witness of C1: `2w` becomes `336h`, `1d` becomes `24h`, `5m` stays `5m`. -/
theorem C1_rotate_interval_conversion_witness :
    (convertRotateInterval sampleEnv (str "2w") = .ok (str "336h")
      ∧ handlerRotateTime sampleEnv (newLogger [WithRotateInterval (str "2w")]) (str "app.log")
        = (newLogger [WithRotateInterval (str "336h")],
            buildTimeRotateHandler sampleEnv
              (newLogger [WithRotateInterval (str "336h")]) (str "app.log")))
    ∧ (convertRotateInterval sampleEnv (str "1d") = .ok (str "24h")
      ∧ handlerRotateTime sampleEnv (newLogger [WithRotateInterval (str "1d")]) (str "app.log")
        = (newLogger [WithRotateInterval (str "24h")],
            buildTimeRotateHandler sampleEnv
              (newLogger [WithRotateInterval (str "24h")]) (str "app.log")))
    ∧ (convertRotateInterval sampleEnv (str "5m") = .ok (str "5m")
      ∧ handlerRotateTime sampleEnv (newLogger [WithRotateInterval (str "5m")]) (str "app.log")
        = (newLogger [WithRotateInterval (str "5m")],
            buildTimeRotateHandler sampleEnv
              (newLogger [WithRotateInterval (str "5m")]) (str "app.log"))) :=
  C1_rotate_interval_conversion sampleEnv (newLogger []) (str "app.log")
    2 (by decide) 1 (by decide) (str "5m") (by decide) (by decide)

/-- Counterexample to C1 as stated. The decimal integer `9223372036854775807`
followed by `w` is handed to the duration parser as `-168h`, not as the product
`1549526502191602335576h`; and the interval `h`, whose last character is `h`, is
rejected by the length check and never reaches the duration parser, which would
have given a different error. -/
theorem C1_counterexample :
    convertRotateInterval sampleEnv (itoa 9223372036854775807 ++ str "w") = .ok (str "-168h")
    ∧ itoa (9223372036854775807 * 7 * 24) ++ str "h" = str "1549526502191602335576h"
    ∧ convertRotateInterval sampleEnv (itoa 9223372036854775807 ++ str "w")
        ≠ .ok (itoa (9223372036854775807 * 7 * 24) ++ str "h")
    ∧ (handlerRotateTime sampleEnv (newLogger [WithRotateInterval (str "h")]) (str "app.log")).2
        = .error (.invalidRotateInterval (str "h"))
    ∧ buildTimeRotateHandler sampleEnv (newLogger [WithRotateInterval (str "h")]) (str "app.log")
        = .error (.parseDuration .invalidDuration) := by
  decide

/-! ## Rotation interval: rejection (C2) -/

theorem defaultBackups_maxSize (l : logger) : l.defaultBackups.maxSize = l.maxSize := by
  unfold logger.defaultBackups
  split <;> rfl

theorem defaultBackups_rotateInterval (l : logger) :
    l.defaultBackups.rotateInterval = l.rotateInterval := by
  unfold logger.defaultBackups
  split <;> rfl

theorem defaultBackups_timeFormat (l : logger) : l.defaultBackups.timeFormat = l.timeFormat := by
  unfold logger.defaultBackups
  split <;> rfl

theorem defaultBackups_sl (l : logger) : l.defaultBackups.sl = l.sl := by
  unfold logger.defaultBackups
  split <;> rfl

theorem defaultBackups_rotateWriter (l : logger) :
    l.defaultBackups.rotateWriter = l.rotateWriter := by
  unfold logger.defaultBackups
  split <;> rfl

/-- The three ways the first part of `handlerRotateTime` returns an error. -/
theorem convertRotateInterval_error (env : Env) (s : Bytes)
    (h : s.length < 2
      ∨ ((lowerLastChar env s = str "w" ∨ lowerLastChar env s = str "d")
          ∧ ∃ e, Atoi s.dropLast = .error e)
      ∨ lowerLastChar env s ∉ [str "s", str "m", str "h", str "d", str "w"]) :
    ∃ e, convertRotateInterval env s = .error e := by
  unfold convertRotateInterval
  by_cases hlen : s.length < 2
  · exact ⟨_, if_pos hlen⟩
  · rw [if_neg hlen]
    rcases h with h | ⟨hwd, e, he⟩ | h
    · exact absurd h hlen
    · rw [if_pos hwd, he]
      exact ⟨_, rfl⟩
    · simp only [List.mem_cons, List.mem_singleton, not_or, List.not_mem_nil, or_false] at h
      obtain ⟨hs, hm, hh, hd, hw⟩ := h
      rw [if_neg (by tauto), if_neg (by tauto)]
      exact ⟨_, rfl⟩

/-- Whatever the logger, `handlerRotateTime` fails on an interval that its first
part rejects or that the duration parser rejects after conversion. -/
theorem handlerRotateTime_error (env : Env) (log : logger) (logFile : Bytes)
    (h : (∃ e, convertRotateInterval env log.rotateInterval = .error e)
      ∨ ∃ s e, convertRotateInterval env log.rotateInterval = .ok s
          ∧ env.parseDuration s = .error e) :
    ∃ e, (handlerRotateTime env log logFile).2 = .error e := by
  rcases h with ⟨e, he⟩ | ⟨s, e, hs, he⟩
  · rw [handlerRotateTime_of_convert_error env log logFile e he]
    exact ⟨e, rfl⟩
  · rw [handlerRotateTime_of_convert env log logFile s hs]
    refine ⟨.parseDuration e, ?_⟩
    show buildTimeRotateHandler env _ logFile = _
    unfold buildTimeRotateHandler
    simp only [he]

/-- `NewFileLogger` when the size is not positive and the interval is not empty:
the result of `handlerRotateTime` decides. -/
theorem NewFileLogger_time (env : Env) (path : Bytes) (opts : List OptionFunc)
    (hsize : (newLogger opts).maxSize ≤ 0) (hint : (newLogger opts).rotateInterval ≠ []) :
    NewFileLogger env path opts
      = match handlerRotateTime env (newLogger opts).defaultBackups path with
        | (_, .error e) => .error e
        | (l1, .ok h) =>
          .ok (l1.attach h (genLogFormatter (newLogger opts).timeFormat)).finish := by
  unfold NewFileLogger
  simp only [defaultBackups_maxSize, defaultBackups_rotateInterval, defaultBackups_timeFormat]
  rw [if_neg (by omega), if_pos hint]

/-- C2 (as amended). `handlerRotateTime` returns an error and no handler for every
interval that is shorter than two bytes, or whose last character, lower-cased, is
`w` or `d` while `strconv.Atoi` rejects the prefix before it, or whose last
character, lower-cased, is none of `s`, `m`, `h`, `d`, `w`, or that the duration
parser rejects after the conversion; and `NewFileLogger`, when it selects time
rotation with such an interval, returns that error and no logger. In particular
the empty interval, `x`, `1` and `1y` are rejected. -/
theorem C2_rotate_interval_rejection (env : Env) (log : logger) (logFile : Bytes)
    (h : log.rotateInterval.length < 2
      ∨ ((lowerLastChar env log.rotateInterval = str "w"
            ∨ lowerLastChar env log.rotateInterval = str "d")
          ∧ ∃ e, Atoi log.rotateInterval.dropLast = .error e)
      ∨ lowerLastChar env log.rotateInterval ∉ [str "s", str "m", str "h", str "d", str "w"]
      ∨ ∃ s e, convertRotateInterval env log.rotateInterval = .ok s
          ∧ env.parseDuration s = .error e) :
    (∃ e, (handlerRotateTime env log logFile).2 = .error e)
    ∧ (∀ (path : Bytes) (opts : List OptionFunc), (newLogger opts).maxSize ≤ 0 →
        (newLogger opts).rotateInterval = log.rotateInterval → log.rotateInterval ≠ [] →
        ∃ e, NewFileLogger env path opts = .error e)
    ∧ (∀ (l : logger) (f : Bytes),
        l.rotateInterval ∈ [str "", str "x", str "1", str "1y"] →
        ∃ e, (handlerRotateTime env l f).2 = .error e) := by
  have key : ∀ (l : logger) (f : Bytes), l.rotateInterval = log.rotateInterval →
      ∃ e, (handlerRotateTime env l f).2 = .error e := by
    intro l f hl
    apply handlerRotateTime_error
    rw [hl]
    rcases h with h | h | h | h
    · exact Or.inl (convertRotateInterval_error env _ (Or.inl h))
    · exact Or.inl (convertRotateInterval_error env _ (Or.inr (Or.inl h)))
    · exact Or.inl (convertRotateInterval_error env _ (Or.inr (Or.inr h)))
    · exact Or.inr h
  refine ⟨key log logFile rfl, ?_, ?_⟩
  · intro path opts hsize hsame hne
    rw [NewFileLogger_time env path opts hsize (by rw [hsame]; exact hne)]
    obtain ⟨e, he⟩ := key (newLogger opts).defaultBackups path
      (by rw [defaultBackups_rotateInterval, hsame])
    generalize handlerRotateTime env (newLogger opts).defaultBackups path = r at he
    obtain ⟨l1, r2⟩ := r
    simp only at he
    subst he
    exact ⟨e, rfl⟩
  · intro l f hl
    apply handlerRotateTime_error
    left
    apply convertRotateInterval_error
    simp only [List.mem_cons, List.mem_singleton, List.not_mem_nil, or_false] at hl
    rcases hl with hl | hl | hl | hl
    · left; rw [hl]; decide
    · left; rw [hl]; decide
    · left; rw [hl]; decide
    · right; right
      rw [hl]
      have h1y : str "1y" = [49] ++ [121] := by decide
      rw [h1y, lowerLastChar_concat env [49] 121 (by omega)]
      decide

/-- Witness of C2: the interval `1y`, alone and in a file logger that selects time
rotation, and the empty interval. -/
theorem C2_rotate_interval_rejection_witness :
    lowerLastChar sampleEnv (newLogger [WithRotateInterval (str "1y")]).rotateInterval
        ∉ [str "s", str "m", str "h", str "d", str "w"]
    ∧ (∃ e, (handlerRotateTime sampleEnv (newLogger [WithRotateInterval (str "1y")])
        (str "app.log")).2 = .error e)
    ∧ (∃ e, NewFileLogger sampleEnv (str "app.log") [WithRotateInterval (str "1y")] = .error e)
    ∧ (∃ e, (handlerRotateTime sampleEnv (newLogger [WithRotateInterval (str "")])
        (str "app.log")).2 = .error e) :=
  ⟨by decide,
    (C2_rotate_interval_rejection sampleEnv (newLogger [WithRotateInterval (str "1y")])
      (str "app.log") (Or.inr (Or.inr (Or.inl (by decide))))).1,
    (C2_rotate_interval_rejection sampleEnv (newLogger [WithRotateInterval (str "1y")])
      (str "app.log") (Or.inr (Or.inr (Or.inl (by decide))))).2.1
        (str "app.log") [WithRotateInterval (str "1y")] (by decide) rfl (by decide),
    (C2_rotate_interval_rejection sampleEnv (newLogger [WithRotateInterval (str "1y")])
      (str "app.log") (Or.inr (Or.inr (Or.inl (by decide))))).2.2
        (newLogger [WithRotateInterval (str "")]) (str "app.log") (by decide)⟩

/-- Counterexample to C2 as stated. The interval `1W` ends in a letter that is none
of `s`, `m`, `h`, `d`, `w`, and the prefix `1h30` of `1h30m` is not numeric, yet
`handlerRotateTime` returns a handler for both (one week, ninety minutes), and
`NewFileLogger` returns a logger. -/
theorem C2_counterexample :
    (str "1W").getLast? = some 87
    ∧ (87 : Nat) ∉ [115, 109, 104, 100, 119]
    ∧ (handlerRotateTime sampleEnv (newLogger [WithRotateInterval (str "1W")]) (str "app.log")).2
        = .ok { kind := .timeRotate (str "app.log") 604800
                  (handlerConfig sampleEnv (newLogger [])) 0o700,
                formatter := none }
    ∧ (NewFileLogger sampleEnv (str "app.log") [WithRotateInterval (str "1W")]).toOption.isSome
        = true
    ∧ Atoi (str "1h30") = .error .errSyntax
    ∧ (handlerRotateTime sampleEnv (newLogger [WithRotateInterval (str "1h30m")])
          (str "app.log")).2
        = .ok { kind := .timeRotate (str "app.log") 5400
                  (handlerConfig sampleEnv (newLogger [])) 0o700,
                formatter := none } := by
  decide

/-! ## Choice of the rotating handler (C3) -/

theorem finish_handlers (l : logger) : l.finish.sl.handlers = l.sl.handlers := by
  unfold logger.finish
  simp only []
  split <;> rfl

theorem finish_rotateWriter (l : logger) : l.finish.rotateWriter = l.rotateWriter := by
  unfold logger.finish
  simp only []
  split <;> rfl

/-- `NewFileLogger` when the size is positive: only `handlerRotateFile` is called. -/
theorem NewFileLogger_size (env : Env) (path : Bytes) (opts : List OptionFunc)
    (hsize : (newLogger opts).maxSize > 0) :
    NewFileLogger env path opts
      = match handlerRotateFile env (newLogger opts).defaultBackups path with
        | .error e => .error e
        | .ok h =>
          .ok ((newLogger opts).defaultBackups.attach h
                (genLogFormatter (newLogger opts).timeFormat)).finish := by
  unfold NewFileLogger
  simp only [defaultBackups_maxSize, defaultBackups_timeFormat]
  rw [if_pos hsize]

/-- `NewFileLogger` when the size is not positive and the interval is empty. -/
theorem NewFileLogger_none (env : Env) (path : Bytes) (opts : List OptionFunc)
    (hsize : (newLogger opts).maxSize ≤ 0) (hint : (newLogger opts).rotateInterval = []) :
    NewFileLogger env path opts = .ok (newLogger opts).defaultBackups.finish := by
  unfold NewFileLogger
  simp only [defaultBackups_maxSize, defaultBackups_rotateInterval]
  rw [if_neg (by omega), if_neg (by simp [hint])]

/-- The handler `handlerRotateFile` returns is the size-based one. -/
theorem handlerRotateFile_ok (env : Env) (l : logger) (path : Bytes) (h : Handler)
    (hh : handlerRotateFile env l path = .ok h) :
    h = { kind := .sizeRotate path l.maxSize (handlerConfig env l), formatter := none } := by
  unfold handlerRotateFile at hh
  split at hh
  · exact absurd hh (by simp)
  · injection hh with hh
    exact hh.symm

/-- The error `handlerRotateFile` returns is the one of the size-based constructor. -/
theorem handlerRotateFile_error (env : Env) (l : logger) (path : Bytes) (e : Error)
    (hh : handlerRotateFile env l path = .error e) :
    ∃ msg, e = .handler msg
      ∧ env.handlerError (.sizeRotate path l.maxSize (handlerConfig env l)) = some msg := by
  unfold handlerRotateFile at hh
  split at hh
  · rename_i msg hmsg
    injection hh with hh
    exact ⟨msg, hh.symm, hmsg⟩
  · exact absurd hh (by simp)

/-- The handler `handlerRotateTime` returns is a time-based one. -/
theorem handlerRotateTime_ok (env : Env) (l : logger) (path : Bytes) (h : Handler)
    (hh : (handlerRotateTime env l path).2 = .ok h) :
    ∃ rotateTime cfg, h = { kind := .timeRotate path rotateTime cfg 0o700, formatter := none } := by
  unfold handlerRotateTime at hh
  split at hh
  · exact absurd hh (by simp)
  · simp only [buildTimeRotateHandler] at hh
    split at hh
    · exact absurd hh (by simp)
    · split at hh
      · exact absurd hh (by simp)
      · injection hh with hh
        exact ⟨_, _, hh.symm⟩

theorem handlerRotateTime_sl (env : Env) (l : logger) (path : Bytes) :
    (handlerRotateTime env l path).1.sl = l.sl := by
  unfold handlerRotateTime
  split <;> rfl

/-- The options exported by `option.go` touch neither the library logger nor the
rotate-writer. -/
theorem exported_options_keepOutput (b : Bytes) (i : Int) (n : Nat) (c : Bool) :
    (WithLevel b).keepsOutput ∧ (WithMaxSize i).keepsOutput
    ∧ (WithRotateInterval b).keepsOutput ∧ (WithBufferSize i).keepsOutput
    ∧ (WithMaxBackups n).keepsOutput ∧ WithCompress.keepsOutput
    ∧ (WithTimeFormat b).keepsOutput ∧ (WithFilePerm n).keepsOutput
    ∧ WithPrintAfterInitialized.keepsOutput ∧ (WithColor c).keepsOutput
    ∧ (WithCallerSkip i).keepsOutput :=
  ⟨fun _ => ⟨rfl, rfl⟩, fun _ => ⟨rfl, rfl⟩, fun _ => ⟨rfl, rfl⟩, fun _ => ⟨rfl, rfl⟩,
    fun _ => ⟨rfl, rfl⟩, fun _ => ⟨rfl, rfl⟩, fun _ => ⟨rfl, rfl⟩, fun _ => ⟨rfl, rfl⟩,
    fun _ => ⟨rfl, rfl⟩, fun _ => ⟨rfl, rfl⟩, fun _ => ⟨rfl, rfl⟩⟩

theorem foldl_keepsOutput (opts : List OptionFunc) (l : logger)
    (h : ∀ o ∈ opts, OptionFunc.keepsOutput o) :
    (opts.foldl (fun l opt => opt l) l).sl = l.sl
      ∧ (opts.foldl (fun l opt => opt l) l).rotateWriter = l.rotateWriter := by
  induction opts generalizing l with
  | nil => exact ⟨rfl, rfl⟩
  | cons o os ih =>
    have ho := h o (List.mem_cons_self o os)
    have hos := ih (o l) (fun o2 h2 => h o2 (List.mem_cons_of_mem o h2))
    simp only [List.foldl_cons]
    exact ⟨hos.1.trans (ho l).1, hos.2.trans (ho l).2⟩

theorem newLogger_keepsOutput (opts : List OptionFunc)
    (h : ∀ o ∈ opts, OptionFunc.keepsOutput o) :
    (newLogger opts).sl.handlers = [] ∧ (newLogger opts).rotateWriter = none := by
  unfold newLogger
  rw [(foldl_keepsOutput opts _ h).1, (foldl_keepsOutput opts _ h).2]
  exact ⟨rfl, rfl⟩

/-- C3. In `NewFileLogger`, for every path and option list: (1) when the resolved
max-size is positive the result is computed from `handlerRotateFile` alone, it
does not depend on the duration parser, a logger returned has exactly the
size-based handler added and its writer as rotate-writer, and an error returned
is the one of the size-based constructor, whatever the interval; (2) when
max-size is 0 and the interval is not empty the result is computed from
`handlerRotateTime`, and a logger returned has exactly one time-based handler
added and its writer as rotate-writer; (3) when max-size is 0 and the interval
is empty a logger is returned with no handler added and the rotate-writer left
as the options left it; (4) in every case at most one handler is added; (5)
options that touch neither, as all exported ones do, leave no handler and no
rotate-writer before that choice. -/
theorem C3_rotation_mutually_exclusive (env : Env) (path : Bytes) (opts : List OptionFunc) :
    ((newLogger opts).maxSize > 0 →
      NewFileLogger env path opts
        = (match handlerRotateFile env (newLogger opts).defaultBackups path with
          | .error e => .error e
          | .ok h =>
            .ok ((newLogger opts).defaultBackups.attach h
                  (genLogFormatter (newLogger opts).timeFormat)).finish)
      ∧ (∀ (pd : Bytes → Except DurationError Int) (rt : Int → Int),
          NewFileLogger { env with parseDuration := pd, rotateTime := rt } path opts
            = NewFileLogger env path opts)
      ∧ (∀ lg, NewFileLogger env path opts = .ok lg →
          lg.sl.handlers = (newLogger opts).sl.handlers
              ++ [{ kind := .sizeRotate path (newLogger opts).maxSize
                              (handlerConfig env (newLogger opts).defaultBackups),
                    formatter := some (genLogFormatter (newLogger opts).timeFormat) }]
          ∧ lg.rotateWriter = some (.ofHandler (.sizeRotate path (newLogger opts).maxSize
                              (handlerConfig env (newLogger opts).defaultBackups))))
      ∧ (∀ e, NewFileLogger env path opts = .error e → ∃ msg, e = .handler msg
          ∧ env.handlerError (.sizeRotate path (newLogger opts).maxSize
                (handlerConfig env (newLogger opts).defaultBackups)) = some msg))
    ∧ ((newLogger opts).maxSize = 0 → (newLogger opts).rotateInterval ≠ [] →
      NewFileLogger env path opts
        = (match handlerRotateTime env (newLogger opts).defaultBackups path with
          | (_, .error e) => .error e
          | (l1, .ok h) => .ok (l1.attach h (genLogFormatter (newLogger opts).timeFormat)).finish)
      ∧ (∀ lg, NewFileLogger env path opts = .ok lg →
          ∃ rotateTime cfg,
            lg.sl.handlers = (newLogger opts).sl.handlers
              ++ [{ kind := .timeRotate path rotateTime cfg 0o700,
                    formatter := some (genLogFormatter (newLogger opts).timeFormat) }]
            ∧ lg.rotateWriter = some (.ofHandler (.timeRotate path rotateTime cfg 0o700))))
    ∧ ((newLogger opts).maxSize = 0 → (newLogger opts).rotateInterval = [] →
      ∃ lg, NewFileLogger env path opts = .ok lg
        ∧ lg.sl.handlers = (newLogger opts).sl.handlers
        ∧ lg.rotateWriter = (newLogger opts).rotateWriter)
    ∧ (∀ lg, NewFileLogger env path opts = .ok lg →
        lg.sl.handlers.length ≤ (newLogger opts).sl.handlers.length + 1)
    ∧ ((∀ o ∈ opts, OptionFunc.keepsOutput o) →
        (newLogger opts).sl.handlers = [] ∧ (newLogger opts).rotateWriter = none) := by
  have hsizeCase : (newLogger opts).maxSize > 0 → ∀ lg, NewFileLogger env path opts = .ok lg →
      lg.sl.handlers = (newLogger opts).sl.handlers
          ++ [{ kind := .sizeRotate path (newLogger opts).maxSize
                          (handlerConfig env (newLogger opts).defaultBackups),
                formatter := some (genLogFormatter (newLogger opts).timeFormat) }]
      ∧ lg.rotateWriter = some (.ofHandler (.sizeRotate path (newLogger opts).maxSize
                          (handlerConfig env (newLogger opts).defaultBackups))) := by
    intro hsize lg hlg
    rw [NewFileLogger_size env path opts hsize] at hlg
    cases hr : handlerRotateFile env (newLogger opts).defaultBackups path with
    | error e => rw [hr] at hlg; exact absurd hlg (by simp)
    | ok h =>
      rw [hr] at hlg
      have hk := handlerRotateFile_ok env _ path h hr
      injection hlg with hlg
      subst hlg
      subst hk
      rw [finish_handlers, finish_rotateWriter]
      simp only [logger.attach, defaultBackups_sl, defaultBackups_maxSize]
      exact ⟨trivial, trivial⟩
  have htimeCase : (newLogger opts).maxSize ≤ 0 → (newLogger opts).rotateInterval ≠ [] →
      ∀ lg, NewFileLogger env path opts = .ok lg →
      ∃ rotateTime cfg,
        lg.sl.handlers = (newLogger opts).sl.handlers
          ++ [{ kind := .timeRotate path rotateTime cfg 0o700,
                formatter := some (genLogFormatter (newLogger opts).timeFormat) }]
        ∧ lg.rotateWriter = some (.ofHandler (.timeRotate path rotateTime cfg 0o700)) := by
    intro hsize hint lg hlg
    rw [NewFileLogger_time env path opts hsize hint] at hlg
    have hsl := handlerRotateTime_sl env (newLogger opts).defaultBackups path
    have hok := handlerRotateTime_ok env (newLogger opts).defaultBackups path
    generalize handlerRotateTime env (newLogger opts).defaultBackups path = r at hlg hsl hok
    obtain ⟨l1, r2⟩ := r
    cases r2 with
    | error e => exact absurd hlg (by simp)
    | ok h =>
      obtain ⟨rotateTime, cfg, hk⟩ := hok h rfl
      simp only at hlg hsl
      injection hlg with hlg
      subst hlg
      subst hk
      refine ⟨rotateTime, cfg, ?_⟩
      rw [finish_handlers, finish_rotateWriter]
      simp only [logger.attach, hsl, defaultBackups_sl]
      exact ⟨trivial, trivial⟩
  have hnoneCase : (newLogger opts).maxSize ≤ 0 → (newLogger opts).rotateInterval = [] →
      ∃ lg, NewFileLogger env path opts = .ok lg
        ∧ lg.sl.handlers = (newLogger opts).sl.handlers
        ∧ lg.rotateWriter = (newLogger opts).rotateWriter := by
    intro hsize hint
    refine ⟨_, NewFileLogger_none env path opts hsize hint, ?_, ?_⟩
    · rw [finish_handlers, defaultBackups_sl]
    · rw [finish_rotateWriter, defaultBackups_rotateWriter]
  refine ⟨?_, ?_, ?_, ?_, newLogger_keepsOutput opts⟩
  · intro hsize
    refine ⟨NewFileLogger_size env path opts hsize, ?_, hsizeCase hsize, ?_⟩
    · intro pd rt
      rw [NewFileLogger_size env path opts hsize,
        NewFileLogger_size { env with parseDuration := pd, rotateTime := rt } path opts hsize]
      rfl
    · intro e he
      rw [NewFileLogger_size env path opts hsize] at he
      cases hr : handlerRotateFile env (newLogger opts).defaultBackups path with
      | ok h => rw [hr] at he; exact absurd he (by simp)
      | error e2 =>
        rw [hr] at he
        injection he with he
        subst he
        have := handlerRotateFile_error env _ path e2 hr
        rw [defaultBackups_maxSize] at this
        exact this
  · intro hsize hint
    exact ⟨NewFileLogger_time env path opts (by omega) hint, htimeCase (by omega) hint⟩
  · intro hsize hint
    exact hnoneCase (by omega) hint
  · intro lg hlg
    by_cases hsize : (newLogger opts).maxSize > 0
    · rw [(hsizeCase hsize lg hlg).1]
      simp
    · by_cases hint : (newLogger opts).rotateInterval = []
      · obtain ⟨lg2, h2, h3, _⟩ := hnoneCase (by omega) hint
        rw [h2] at hlg
        injection hlg with hlg
        subst hlg
        rw [h3]
        omega
      · obtain ⟨rotateTime, cfg, h2, _⟩ := htimeCase (by omega) hint lg hlg
        rw [h2]
        simp

/-- Witness of C3: a positive size with the invalid interval `1y` gives the
size-based handler and no error; size 0 with interval `1h` gives a time-based
handler; size 0 with the empty interval gives no handler and no rotate-writer. -/
theorem C3_rotation_mutually_exclusive_witness :
    (∃ lg, NewFileLogger sampleEnv (str "app.log")
          [WithMaxSize 1024, WithRotateInterval (str "1y")] = .ok lg
        ∧ lg.sl.handlers
          = [{ kind := .sizeRotate (str "app.log") 1024
                  { logLevels := [.InfoLevel, .WarnLevel, .ErrorLevel], buffSize := 0,
                    backupNum := 12, compress := true, filePerm := 0o700 },
               formatter := some (genLogFormatter (str "2006-01-02 15:04:05")) }])
    ∧ (∃ lg rotateTime cfg, NewFileLogger sampleEnv (str "app.log")
          [WithRotateInterval (str "1h")] = .ok lg
        ∧ lg.sl.handlers
          = [{ kind := .timeRotate (str "app.log") rotateTime cfg 0o700,
               formatter := some (genLogFormatter (str "2006-01-02 15:04:05")) }])
    ∧ (∃ lg, NewFileLogger sampleEnv (str "app.log") [WithRotateInterval (str "")] = .ok lg
        ∧ lg.sl.handlers = [] ∧ lg.rotateWriter = none) :=
  ⟨⟨_, rfl,
      (((C3_rotation_mutually_exclusive sampleEnv (str "app.log")
        [WithMaxSize 1024, WithRotateInterval (str "1y")]).1 (by decide)).2.2.1 _ rfl).1⟩,
    (let h := ((C3_rotation_mutually_exclusive sampleEnv (str "app.log")
        [WithRotateInterval (str "1h")]).2.1 (by decide) (by decide)).2 _ rfl
     ⟨_, h.choose, h.choose_spec.choose, rfl, h.choose_spec.choose_spec.1⟩),
    (C3_rotation_mutually_exclusive sampleEnv (str "app.log")
        [WithRotateInterval (str "")]).2.2.1 (by decide) (by decide)⟩

/-! ## `Write` on a console logger (C4) -/

/-- C4 (as amended). For every option list and every byte slice `p`,
`NewStdoutLogger` returns a logger whose rotate-writer is the output of its
console handler, and `Write(p)` on it forwards `p` to that output and returns
what the output returns; on a logger that has no rotate-writer `Write` returns
`(0, nil)` and forwards nothing. -/
theorem C4_stdout_logger_write (env : Env) (opts : List OptionFunc) (p : Bytes) :
    (∃ l, NewStdoutLogger env opts = .ok l
      ∧ l.rotateWriter = some (.ofHandler (.console (parseLevels env (newLogger opts).level)))
      ∧ l.Write env p
        = { n := (env.write (.ofHandler (.console (parseLevels env (newLogger opts).level))) p).1,
            err := (env.write (.ofHandler (.console (parseLevels env (newLogger opts).level))) p).2,
            forwarded := [(.ofHandler (.console (parseLevels env (newLogger opts).level)), p)] })
    ∧ (∀ l : logger, logger.Write env { l with rotateWriter := none } p
        = { n := 0, err := none, forwarded := [] }) :=
  ⟨⟨_, rfl, rfl, rfl⟩, fun _ => rfl⟩

/-- Counterexample to C4 as stated. `Write` of the ten bytes `test write` on the
logger returned by `NewStdoutLogger()` forwards them to the console output and
returns `(10, nil)`, not `(0, nil)`. -/
theorem C4_counterexample :
    ∃ l, NewStdoutLogger sampleEnv [] = .ok l
      ∧ l.Write sampleEnv (str "test write")
        = { n := 10, err := none,
            forwarded := [(.ofHandler (.console [.InfoLevel, .WarnLevel, .ErrorLevel]),
                            str "test write")] } :=
  ⟨_, rfl, by decide⟩

end slog

namespace gorm

open slog (Bytes Level str)

/-! ## `Trace` of the ORM adapter (C5) -/

/-- `Trace` with the constants of gorm written out. -/
theorem Trace_eq (l : GormLogger) (elapsed : Int) (fc : Unit → Bytes × Int)
    (err : Option GoError) :
    l.Trace elapsed fc err
      = if l.LogLevel ≤ 1 then none
        else if err ≠ none ∧ l.LogLevel ≥ 2
            ∧ (err.any isRecordNotFound = false ∨ l.IgnoreRecordNotFoundError = false) then
          some { level := .ErrorLevel, err := err, slow := none, elapsed := elapsed,
                 rows := normRows (fc ()).2, sql := (fc ()).1 }
        else if elapsed > l.SlowThreshold ∧ l.SlowThreshold ≠ 0 ∧ l.LogLevel ≥ 3 then
          some { level := .WarnLevel, err := none, slow := some l.SlowThreshold,
                 elapsed := elapsed, rows := normRows (fc ()).2, sql := (fc ()).1 }
        else if l.LogLevel = 4 then
          some { level := .TraceLevel, err := none, slow := none, elapsed := elapsed,
                 rows := normRows (fc ()).2, sql := (fc ()).1 }
        else none := by
  unfold GormLogger.Trace Silent Error Warn Info
  simp only [Bool.not_eq_true]

/-- C5. `Trace` writes at most one line, chosen in priority order. Nothing is
written when the level is at or below `Silent`. Otherwise a line at error
severity is written iff `err` is non-nil, the level is at least `Error` and
(`err` is not the record-not-found sentinel or the ignore flag is false);
otherwise a line at warn severity iff the elapsed time exceeds the slow
threshold, the threshold is not 0 and the level is at least `Warn`; otherwise a
line at trace severity iff the level is `Info`. Every line shows the row count
with `-1` replaced by `0`. In particular a record-not-found error with the
ignore flag set never gives an error line, and with 50ms elapsed, a threshold of
10ms and a level of at least `Warn`, a warn line is written when the error
branch does not apply. -/
theorem C5_trace_branches (l : GormLogger) (elapsed : Int) (fc : Unit → Bytes × Int)
    (err : Option GoError) :
    (l.LogLevel ≤ Silent → l.Trace elapsed fc err = none)
    ∧ ((∃ t, l.Trace elapsed fc err = some t ∧ t.level = .ErrorLevel) ↔
        (Silent < l.LogLevel ∧ err ≠ none ∧ l.LogLevel ≥ Error
          ∧ (err.any isRecordNotFound = false ∨ l.IgnoreRecordNotFoundError = false)))
    ∧ ((∃ t, l.Trace elapsed fc err = some t ∧ t.level = .WarnLevel) ↔
        (Silent < l.LogLevel
          ∧ ¬ (err ≠ none ∧ l.LogLevel ≥ Error
              ∧ (err.any isRecordNotFound = false ∨ l.IgnoreRecordNotFoundError = false))
          ∧ elapsed > l.SlowThreshold ∧ l.SlowThreshold ≠ 0 ∧ l.LogLevel ≥ Warn))
    ∧ ((∃ t, l.Trace elapsed fc err = some t ∧ t.level = .TraceLevel) ↔
        (Silent < l.LogLevel
          ∧ ¬ (err ≠ none ∧ l.LogLevel ≥ Error
              ∧ (err.any isRecordNotFound = false ∨ l.IgnoreRecordNotFoundError = false))
          ∧ ¬ (elapsed > l.SlowThreshold ∧ l.SlowThreshold ≠ 0 ∧ l.LogLevel ≥ Warn)
          ∧ l.LogLevel = Info))
    ∧ (∀ t, l.Trace elapsed fc err = some t →
        (t.level = .ErrorLevel ∨ t.level = .WarnLevel ∨ t.level = .TraceLevel)
        ∧ t.sql = (fc ()).1
        ∧ t.rows = (if (fc ()).2 = -1 then 0 else (fc ()).2))
    ∧ (err.any isRecordNotFound = true → l.IgnoreRecordNotFoundError = true →
        ¬ ∃ t, l.Trace elapsed fc err = some t ∧ t.level = .ErrorLevel)
    ∧ (elapsed = 50000000 → l.SlowThreshold = 10000000 → l.LogLevel ≥ Warn →
        ¬ (err ≠ none
            ∧ (err.any isRecordNotFound = false ∨ l.IgnoreRecordNotFoundError = false)) →
        l.Trace elapsed fc err
          = some { level := .WarnLevel, err := none, slow := some 10000000, elapsed := 50000000,
                   rows := (if (fc ()).2 = -1 then 0 else (fc ()).2), sql := (fc ()).1 }) := by
  rw [Trace_eq]
  have hrows : normRows (fc ()).2 = (if (fc ()).2 = -1 then 0 else (fc ()).2) := rfl
  have hSil : Silent = 1 := rfl
  have hErr : Error = 2 := rfl
  have hWarn : Warn = 3 := rfl
  have hInfo : Info = 4 := rfl
  rw [hSil, hErr, hWarn, hInfo, hrows]
  by_cases h1 : l.LogLevel ≤ 1
  · rw [if_pos h1]
    refine ⟨fun _ => rfl, ⟨?_, ?_⟩, ⟨?_, ?_⟩, ⟨?_, ?_⟩, ?_, ?_, ?_⟩
    · rintro ⟨t, ht, -⟩; exact absurd ht (by simp)
    · rintro ⟨h, -⟩; omega
    · rintro ⟨t, ht, -⟩; exact absurd ht (by simp)
    · rintro ⟨h, -⟩; omega
    · rintro ⟨t, ht, -⟩; exact absurd ht (by simp)
    · rintro ⟨h, -⟩; omega
    · intro t ht; exact absurd ht (by simp)
    · rintro - - ⟨t, ht, -⟩; exact absurd ht (by simp)
    · intro _ _ h; omega
  · rw [if_neg h1]
    have h1b : (1 : Int) < l.LogLevel := by omega
    by_cases hE : err ≠ none ∧ l.LogLevel ≥ 2
        ∧ (err.any isRecordNotFound = false ∨ l.IgnoreRecordNotFoundError = false)
    · rw [if_pos hE]
      refine ⟨fun h => absurd h h1, ⟨?_, ?_⟩, ⟨?_, ?_⟩, ⟨?_, ?_⟩, ?_, ?_, ?_⟩
      · intro _; exact ⟨h1b, hE⟩
      · intro _; exact ⟨_, rfl, rfl⟩
      · rintro ⟨t, ht, hl⟩
        injection ht with ht; subst ht; exact absurd hl (by simp)
      · rintro ⟨-, h, -⟩; exact absurd hE h
      · rintro ⟨t, ht, hl⟩
        injection ht with ht; subst ht; exact absurd hl (by simp)
      · rintro ⟨-, h, -⟩; exact absurd hE h
      · intro t ht
        injection ht with ht; subst ht
        exact ⟨Or.inl rfl, rfl, rfl⟩
      · intro hnf hig
        rcases hE.2.2 with h | h
        · rw [h] at hnf; exact absurd hnf (by simp)
        · rw [h] at hig; exact absurd hig (by simp)
      · intro _ _ _ hne
        exact absurd ⟨hE.1, hE.2.2⟩ hne
    · rw [if_neg hE]
      by_cases hS : elapsed > l.SlowThreshold ∧ l.SlowThreshold ≠ 0 ∧ l.LogLevel ≥ 3
      · rw [if_pos hS]
        refine ⟨fun h => absurd h h1, ⟨?_, ?_⟩, ⟨?_, ?_⟩, ⟨?_, ?_⟩, ?_, ?_, ?_⟩
        · rintro ⟨t, ht, hl⟩
          injection ht with ht; subst ht; exact absurd hl (by simp)
        · rintro ⟨-, h⟩; exact absurd h hE
        · intro _; exact ⟨h1b, hE, hS⟩
        · intro _; exact ⟨_, rfl, rfl⟩
        · rintro ⟨t, ht, hl⟩
          injection ht with ht; subst ht; exact absurd hl (by simp)
        · rintro ⟨-, -, h, -⟩; exact absurd hS h
        · intro t ht
          injection ht with ht; subst ht
          exact ⟨Or.inr (Or.inl rfl), rfl, rfl⟩
        · rintro - - ⟨t, ht, hl⟩
          injection ht with ht; subst ht; exact absurd hl (by simp)
        · intro he hs _ _
          rw [he, hs]
      · rw [if_neg hS]
        by_cases hI : l.LogLevel = 4
        · rw [if_pos hI]
          refine ⟨fun h => absurd h h1, ⟨?_, ?_⟩, ⟨?_, ?_⟩, ⟨?_, ?_⟩, ?_, ?_, ?_⟩
          · rintro ⟨t, ht, hl⟩
            injection ht with ht; subst ht; exact absurd hl (by simp)
          · rintro ⟨-, h⟩; exact absurd h hE
          · rintro ⟨t, ht, hl⟩
            injection ht with ht; subst ht; exact absurd hl (by simp)
          · rintro ⟨-, -, h⟩; exact absurd h hS
          · intro _; exact ⟨h1b, hE, hS, hI⟩
          · intro _; exact ⟨_, rfl, rfl⟩
          · intro t ht
            injection ht with ht; subst ht
            exact ⟨Or.inr (Or.inr rfl), rfl, rfl⟩
          · rintro - - ⟨t, ht, hl⟩
            injection ht with ht; subst ht; exact absurd hl (by simp)
          · intro he hs hw _
            exact absurd ⟨by omega, by omega, hw⟩ hS
        · rw [if_neg hI]
          refine ⟨fun h => absurd h h1, ⟨?_, ?_⟩, ⟨?_, ?_⟩, ⟨?_, ?_⟩, ?_, ?_, ?_⟩
          · rintro ⟨t, ht, -⟩; exact absurd ht (by simp)
          · rintro ⟨-, h⟩; exact absurd h hE
          · rintro ⟨t, ht, -⟩; exact absurd ht (by simp)
          · rintro ⟨-, -, h⟩; exact absurd h hS
          · rintro ⟨t, ht, -⟩; exact absurd ht (by simp)
          · rintro ⟨-, -, -, h⟩; exact absurd h hI
          · intro t ht; exact absurd ht (by simp)
          · rintro - - ⟨t, ht, -⟩; exact absurd ht (by simp)
          · intro he hs hw _
            exact absurd ⟨by omega, by omega, hw⟩ hS

/-- Witness of C5: a record-not-found error with the ignore flag set, 50ms
elapsed against a threshold of 10ms at level `Warn`, and a row count of `-1`:
one warn line with row count 0. -/
theorem C5_trace_branches_witness :
    (GormLogger.Trace
        { SlowThreshold := 10000000, Colorful := false, IgnoreRecordNotFoundError := true,
          ParameterizedQueries := false, LogLevel := Warn }
        50000000 (fun _ => (str "SELECT 1", -1)) (some .ErrRecordNotFound))
      = some { level := .WarnLevel, err := none, slow := some 10000000, elapsed := 50000000,
               rows := 0, sql := str "SELECT 1" } :=
  (C5_trace_branches
      { SlowThreshold := 10000000, Colorful := false, IgnoreRecordNotFoundError := true,
        ParameterizedQueries := false, LogLevel := Warn }
      50000000 (fun _ => (str "SELECT 1", -1)) (some .ErrRecordNotFound)).2.2.2.2.2.2
    rfl rfl (by decide) (by decide)

end gorm

namespace slog

/-! ## The global logger (C6, C7) -/

/-- C6. `SetLogger(nil)` panics and leaves the global state as it was; for every
non-nil `h` and every prior state, `SetLogger(h)` returns normally, and the next
`GetLogger()` returns exactly `h`, builds no default logger and leaves the state
with `h` as the global logger. -/
theorem C6_set_then_get (env : Env) (g : Global) (h : LoggerWithWriter) :
    (SetLogger none g).result = .error .loggerNil
    ∧ (SetLogger none g).state = g
    ∧ (SetLogger (some h) g).result = .ok ()
    ∧ (SetLogger (some h) g).state.defaultLogger = some h
    ∧ (GetLogger env (SetLogger (some h) g).state).1.result = .ok h
    ∧ (GetLogger env (SetLogger (some h) g).state).2 = false
    ∧ (GetLogger env (SetLogger (some h) g).state).1.state = (SetLogger (some h) g).state :=
  ⟨rfl, rfl, rfl, rfl, rfl, rfl, rfl⟩

theorem run_onceDone (env : Env) (c : InitCall) (g : Global) (h : g.onceDone = true) :
    c.run env g = { state := g, err := none, constructed := false } := by
  cases c <;> simp [InitCall.run, Init, InitFile, h]

theorem installResult_onceDone (r : Except Error logger) :
    (installResult r).state.onceDone = true ∧ (installResult r).constructed = true := by
  cases r <;> exact ⟨rfl, rfl⟩

theorem run_state_onceDone (env : Env) (c : InitCall) (g : Global) :
    (c.run env g).state.onceDone = true := by
  by_cases h : g.onceDone = true
  · rw [run_onceDone env c g h]
    exact h
  · cases c <;> simp only [InitCall.run, Init, InitFile, h] <;>
      exact (installResult_onceDone _).1

theorem run_constructed (env : Env) (c : InitCall) (g : Global) (h : g.onceDone = false) :
    (c.run env g).constructed = true := by
  cases c <;> simp only [InitCall.run, Init, InitFile, h] <;>
    exact (installResult_onceDone _).2

theorem runInitCalls_onceDone (env : Env) (cs : List InitCall) (g : Global)
    (h : g.onceDone = true) :
    runInitCalls env cs g
      = (cs.map (fun _ => { state := g, err := none, constructed := false }), g) := by
  induction cs with
  | nil => rfl
  | cons c cs ih =>
    simp only [runInitCalls, run_onceDone env c g h, ih, List.map_cons]

/-- C7. In every sequence of `Init` and `InitFile` calls, from every state of the
package variables: every call after the first returns no error, runs no
constructor and leaves the global state as the first call left it, whatever
its path and options; so at most one call runs a constructor, and from a state
in which the guard has not fired the first call is the one that does. -/
theorem C7_init_once (env : Env) (c : InitCall) (cs : List InitCall) (g : Global) :
    (runInitCalls env (c :: cs) g).1.head? = some (c.run env g)
    ∧ (∀ r ∈ (runInitCalls env (c :: cs) g).1.tail,
        r.err = none ∧ r.constructed = false ∧ r.state = (c.run env g).state)
    ∧ (runInitCalls env (c :: cs) g).1.length = (c :: cs).length
    ∧ (runInitCalls env (c :: cs) g).2 = (c.run env g).state
    ∧ ((runInitCalls env (c :: cs) g).1.filter (fun r => r.constructed)).length ≤ 1
    ∧ (g.onceDone = false → (c.run env g).constructed = true)
    ∧ (g.onceDone = true → c.run env g = { state := g, err := none, constructed := false }) := by
  have hrest := runInitCalls_onceDone env cs (c.run env g).state (run_state_onceDone env c g)
  have hfilter : ∀ (l : List InitCall) (s : Global),
      (l.map (fun _ => ({ state := s, err := none, constructed := false } : InitResult))).filter
        (fun r => r.constructed) = [] := by
    intro l s
    induction l with
    | nil => rfl
    | cons a l ih => simp only [List.map_cons, List.filter_cons, ih]; rfl
  refine ⟨rfl, ?_, ?_, ?_, ?_, run_constructed env c g, run_onceDone env c g⟩
  · intro r hr
    simp only [runInitCalls, hrest, List.tail_cons, List.mem_map] at hr
    obtain ⟨_, _, hr⟩ := hr
    subst hr
    exact ⟨rfl, rfl, rfl⟩
  · simp only [runInitCalls, hrest, List.length_cons, List.length_map]
  · simp only [runInitCalls, hrest]
  · simp only [runInitCalls, hrest, List.filter_cons, hfilter]
    split <;> simp

/-- Witness of C7: from the initial state `Init()` runs the constructor, and
`InitFile` with the invalid interval `1y` after it returns no error, runs no
constructor and leaves the state as `Init()` left it. -/
theorem C7_init_once_witness :
    Global.initial.onceDone = false
    ∧ ((InitCall.init []).run sampleEnv Global.initial).constructed = true
    ∧ (((InitCall.initFile (str "app.log") [WithRotateInterval (str "1y")]).run sampleEnv
          ((InitCall.init []).run sampleEnv Global.initial).state).err = none
      ∧ ((InitCall.initFile (str "app.log") [WithRotateInterval (str "1y")]).run sampleEnv
          ((InitCall.init []).run sampleEnv Global.initial).state).constructed = false
      ∧ ((InitCall.initFile (str "app.log") [WithRotateInterval (str "1y")]).run sampleEnv
          ((InitCall.init []).run sampleEnv Global.initial).state).state
        = ((InitCall.init []).run sampleEnv Global.initial).state) :=
  ⟨rfl,
    (C7_init_once sampleEnv (.init [])
      [.initFile (str "app.log") [WithRotateInterval (str "1y")]] Global.initial).2.2.2.2.2.1 rfl,
    (C7_init_once sampleEnv (.init [])
      [.initFile (str "app.log") [WithRotateInterval (str "1y")]] Global.initial).2.1 _
      (List.mem_cons_self _ _)⟩

/-! ## Options (C8) -/

theorem newLogger_append (opts : List OptionFunc) (o : OptionFunc) :
    newLogger (opts ++ [o]) = o (newLogger opts) := by
  simp [newLogger, List.foldl_append]

/-- C8. For every level string `x` and every option list `opts`, the configuration
built by `newLogger` from `opts` followed by `WithLevel(x)` has level `x` when
`x` is one of `debug`, `info`, `warn`, `error`, and level `info` for every other
`x`, whatever levels `opts` set before; in particular `invalid` gives `info`. -/
theorem C8_level_normalisation (opts : List OptionFunc) (x : Bytes) :
    (x ∈ [str "debug", str "info", str "warn", str "error"] →
        (newLogger (opts ++ [WithLevel x])).level = x)
    ∧ (x ∉ [str "debug", str "info", str "warn", str "error"] →
        (newLogger (opts ++ [WithLevel x])).level = str "info")
    ∧ (newLogger (opts ++ [WithLevel (str "invalid")])).level = str "info" := by
  refine ⟨?_, ?_, ?_⟩
  · intro hx
    rw [newLogger_append]
    simp only [List.mem_cons, List.mem_singleton, List.not_mem_nil, or_false] at hx
    simp only [WithLevel]
    rw [if_pos (by tauto)]
  · intro hx
    rw [newLogger_append]
    simp only [List.mem_cons, List.mem_singleton, List.not_mem_nil, or_false, not_or] at hx
    simp only [WithLevel]
    rw [if_neg (by tauto)]
  · rw [newLogger_append]
    rfl

/-- Witness of C8: `WithLevel("debug")` after `WithLevel("error")` gives `debug`, and
`WithLevel("DEBUG")` gives `info`. -/
theorem C8_level_normalisation_witness :
    (newLogger ([WithLevel (str "error")] ++ [WithLevel (str "debug")])).level = str "debug"
    ∧ (newLogger ([WithLevel (str "error")] ++ [WithLevel (str "DEBUG")])).level = str "info" :=
  ⟨(C8_level_normalisation [WithLevel (str "error")] (str "debug")).1 (by decide),
    (C8_level_normalisation [WithLevel (str "error")] (str "DEBUG")).2.1 (by decide)⟩

/-! ## The log formatter (C9) -/

/-- C9, the code at the failing input. `genLogFormatter` sets `EnableColor` to true
whatever the colour option of the logger: the logger built with no options has
`enableColor = false`, so has the one built with `WithColor(false)`, and the
formatter of the handler `NewStdoutLogger` attaches has `EnableColor = true`. -/
theorem C9_formatter_color_always_enabled (env : Env) (tf : Bytes) (c : Bool) :
    (genLogFormatter tf).EnableColor = true
    ∧ (genLogFormatter tf).FullDisplay = true
    ∧ (genLogFormatter tf).TimeFormat = tf
    ∧ (newLogger []).enableColor = false
    ∧ (newLogger [WithColor c]).enableColor = c
    ∧ (∃ l, NewStdoutLogger env [WithColor false] = .ok l
        ∧ l.enableColor = false
        ∧ l.sl.handlers.map (fun h => h.formatter.map (fun f => f.EnableColor)) = [some true]) :=
  ⟨rfl, rfl, rfl, rfl, rfl, _, rfl, rfl, rfl⟩

/-! ## Level filter (C10) -/

/-- C10. For every level string `x`, `parseLevels(x)` is the list `Info, Warn,
Error, Debug` when `strings.ToLower(x)` is `debug`, and the list `Info, Warn,
Error` otherwise; for a string of ASCII bytes the first case is that of `x`
equal to `debug` up to the case of its letters. So the list always contains
`Info`, `Warn` and `Error`, contains `Debug` only in the first case, and never
contains `Fatal`, `Panic` or `Trace`; `debug`, `DEBUG` and `Debug` are in the
first case, `info`, `warn`, `error` and `invalid` in the second. -/
theorem C10_parse_levels (env : Env) (x : Bytes) :
    (stringsToLower env.unicodeToLower x = str "debug" →
        parseLevels env x = [.InfoLevel, .WarnLevel, .ErrorLevel, .DebugLevel])
    ∧ (stringsToLower env.unicodeToLower x ≠ str "debug" →
        parseLevels env x = [.InfoLevel, .WarnLevel, .ErrorLevel])
    ∧ ((∀ b ∈ x, b < 128) →
        (stringsToLower env.unicodeToLower x = str "debug" ↔
          x.map toLowerASCII = (str "debug").map toLowerASCII))
    ∧ (Level.InfoLevel ∈ parseLevels env x ∧ Level.WarnLevel ∈ parseLevels env x
        ∧ Level.ErrorLevel ∈ parseLevels env x)
    ∧ (Level.DebugLevel ∈ parseLevels env x ↔ stringsToLower env.unicodeToLower x = str "debug")
    ∧ (Level.FatalLevel ∉ parseLevels env x ∧ Level.PanicLevel ∉ parseLevels env x
        ∧ Level.TraceLevel ∉ parseLevels env x ∧ Level.NoticeLevel ∉ parseLevels env x)
    ∧ (∀ y ∈ [str "debug", str "DEBUG", str "Debug"],
        parseLevels env y = [.InfoLevel, .WarnLevel, .ErrorLevel, .DebugLevel])
    ∧ (∀ y ∈ [str "info", str "warn", str "error", str "invalid"],
        parseLevels env y = [.InfoLevel, .WarnLevel, .ErrorLevel]) := by
  refine ⟨?_, ?_, ?_, ?_, ?_, ?_, ?_, ?_⟩
  · intro h
    unfold parseLevels
    rw [if_pos h]
  · intro h
    unfold parseLevels
    rw [if_neg h]
  · intro h
    have hall : x.all (fun b => decide (b < 128)) = true := by
      simpa [List.all_eq_true] using h
    unfold stringsToLower
    rw [if_pos hall]
    have hd : (str "debug").map toLowerASCII = str "debug" := by decide
    rw [hd]
  · unfold parseLevels
    split <;> simp
  · unfold parseLevels
    split
    · rename_i h; simp [h]
    · rename_i h; simp [h]
  · unfold parseLevels
    split <;> simp
  · intro y hy
    simp only [List.mem_cons, List.mem_singleton, List.not_mem_nil, or_false] at hy
    rcases hy with h | h | h <;> subst h <;> rfl
  · intro y hy
    simp only [List.mem_cons, List.mem_singleton, List.not_mem_nil, or_false] at hy
    rcases hy with h | h | h | h <;> subst h <;> rfl

/-- Witness of C10: the level `DeBuG`, a string of ASCII bytes equal to `debug` up
to case. -/
theorem C10_parse_levels_witness :
    parseLevels sampleEnv (str "DeBuG") = [.InfoLevel, .WarnLevel, .ErrorLevel, .DebugLevel] :=
  (C10_parse_levels sampleEnv (str "DeBuG")).1
    (((C10_parse_levels sampleEnv (str "DeBuG")).2.2.1 (by decide)).2 (by decide))

end slog
